import Mathlib

/-!
# Badminton analyzer — verification of the analysis lifecycle tracker

Shallow embedding of the video-upload-and-analysis backend:

* the MongoDB-backed server (the first server in `src/unnamed/part_000`):
  the `Analysis` record schema, the `/api/upload-video` handler, the
  `/api/analysis/:id` handler, the `startAnalysis` lifecycle function and
  the `simulateAIAnalysis` result generator;
* the mock servers (`src/server.js` and the second server in
  `src/unnamed/part_000`), whose `/api/analysis/:id` endpoints return a
  hardcoded payload.

The store is modelled as an association list keyed by the Mongo `_id`;
`findByIdAndUpdate` on an absent id is a no-op, matching mongoose.  The
asynchronous pieces (the un-awaited `startAnalysis` call and the
`setTimeout` callback) are modelled as separate events on a system state,
so that the interleavings a polling client can observe are explicit.
-/

namespace Badminton

/-- The `status` enum of the `Analysis` mongoose schema
(`src/unnamed/part_000:71-75`). -/
inductive Status where
  | pending
  | processing
  | completed
  | failed
deriving DecidableEq, Repr

/-- Position of a status in the lifecycle order
`pending → processing → {completed, failed}`. -/
def Status.rank : Status → Nat
  | .pending => 0
  | .processing => 1
  | .completed => 2
  | .failed => 2

/-- `completed` and `failed` are the terminal statuses (spec glossary). -/
def Status.isTerminal : Status → Bool
  | .completed => true
  | .failed => true
  | _ => false

/-- The lifecycle DAG order: a status may stay put or move strictly forward;
`completed` and `failed` are incomparable. -/
def statusLe (a b : Status) : Bool :=
  a == b || decide (a.rank < b.rank)

/-- `detailedMetrics` of the `technique` section
(`src/unnamed/part_000:80-85`). -/
structure TechniqueMetrics where
  backswing : Nat
  followThrough : Nat
  contactPoint : Nat
  racketPath : Nat
deriving DecidableEq, Repr

/-- `detailedMetrics` of the `footwork` section
(`src/unnamed/part_000:90-94`). -/
structure FootworkMetrics where
  movementEfficiency : Nat
  recoverySpeed : Nat
  courtCoverage : Nat
deriving DecidableEq, Repr

/-- The `technique` section of the results payload. -/
structure TechniqueResult where
  overallScore : Nat
  feedback : List String
  detailedMetrics : TechniqueMetrics
deriving DecidableEq, Repr

/-- The `footwork` section of the results payload. -/
structure FootworkResult where
  overallScore : Nat
  feedback : List String
  detailedMetrics : FootworkMetrics
deriving DecidableEq, Repr

/-- The `strategy` section of the results payload (overall score and
feedback only, `src/unnamed/part_000:96-99`). -/
structure StrategyResult where
  overallScore : Nat
  feedback : List String
deriving DecidableEq, Repr

/-- The `results` payload shape of the `Analysis` schema
(`src/unnamed/part_000:76-100`), which is also the shape produced by
`simulateAIAnalysis`. -/
structure AnalysisResults where
  technique : TechniqueResult
  footwork : FootworkResult
  strategy : StrategyResult
deriving DecidableEq, Repr

/-- One draw of `Math.floor(Math.random() * 40) + 60`
(`src/unnamed/part_000:210` and the like): the random source is modelled
as a stream `rng` of naturals, and `Math.floor(Math.random() * 40)` as
`rng i % 40`, which ranges over `0..39` exactly as the JS expression. -/
def randomScore (rng : Nat → Nat) (i : Nat) : Nat :=
  rng i % 40 + 60

/-- `simulateAIAnalysis` (`src/unnamed/part_000:207-245`): builds the
simulated results payload; the ten random draws are taken from the
stream `rng` in source order. -/
def simulateAIAnalysis (rng : Nat → Nat) : AnalysisResults :=
  { technique :=
      { overallScore := randomScore rng 0
        feedback :=
          [ "Your backhand technique shows good wrist positioning"
          , "Try to fully extend your arm during forehand clears"
          , "Work on maintaining a consistent contact point" ]
        detailedMetrics :=
          { backswing := randomScore rng 1
            followThrough := randomScore rng 2
            contactPoint := randomScore rng 3
            racketPath := randomScore rng 4 } }
    footwork :=
      { overallScore := randomScore rng 5
        feedback :=
          [ "Good split-step timing before opponent\x27s shots"
          , "Work on faster recovery to court center"
          , "Try to use more chassÃ© steps for lateral movement" ]
        detailedMetrics :=
          { movementEfficiency := randomScore rng 6
            recoverySpeed := randomScore rng 7
            courtCoverage := randomScore rng 8 } }
    strategy :=
      { overallScore := randomScore rng 9
        feedback :=
          [ "Good variation in shot selection"
          , "Try to attack more when opponent is out of position"
          , "Consider using more drop shots when opponent is at back court" ] } }

/-- All ten numeric scores of a results payload: the three
`overallScore`s, the four technique metrics and the three footwork
metrics. -/
def AnalysisResults.allScores (res : AnalysisResults) : List Nat :=
  [ res.technique.overallScore
  , res.technique.detailedMetrics.backswing
  , res.technique.detailedMetrics.followThrough
  , res.technique.detailedMetrics.contactPoint
  , res.technique.detailedMetrics.racketPath
  , res.footwork.overallScore
  , res.footwork.detailedMetrics.movementEfficiency
  , res.footwork.detailedMetrics.recoverySpeed
  , res.footwork.detailedMetrics.courtCoverage
  , res.strategy.overallScore ]

/-- The `Analysis` document (`src/unnamed/part_000:66-105`): `userId`,
`shopId`, `videoId` (the stored filename), `videoUrl`, `status`, the
optional `results` payload and `createdAt`.  The Mongo `_id` is the key
under which the record is held in the store, not a field. -/
structure AnalysisRecord where
  userId : String
  shopId : String
  videoId : String
  videoUrl : String
  status : Status
  results : Option AnalysisResults
  createdAt : Nat
deriving DecidableEq, Repr

/-- The `Analysis` collection: an association list from Mongo `_id` to
document. -/
abbrev Store := List (String × AnalysisRecord)

/-- The resolve path of mongoose `Analysis.findById`: the first document
whose `_id` matches, if any.  This path is reached only once the id has
been cast to an ObjectId — see `findByIdChecked` for the cast step that a
client-supplied string must pass first.  The internal
`findByIdAndUpdate` calls of `startAnalysis` receive `analysis._id`
(a Mongo-generated ObjectId), which always casts. -/
def findById (store : Store) (id : String) : Option AnalysisRecord :=
  (store.find? (fun p => p.1 == id)).map (·.2)

/-- Whether a character is a hexadecimal digit. -/
def isHexDigit (c : Char) : Bool :=
  c.isDigit || ('a' ≤ c && c ≤ 'f') || ('A' ≤ c && c ≤ 'F')

/-- Whether a string casts to a BSON ObjectId (mongoose
`ObjectId.isValid` on strings): either a 12-character string (taken as
12 raw bytes) or a 24-character hexadecimal string. -/
def isValidObjectId (id : String) : Bool :=
  id.length == 12 || (id.length == 24 && id.data.all isHexDigit)

/-- The message of the `CastError` mongoose rejects with when a string
cannot be cast to an ObjectId at the `_id` path of the `Analysis`
model. -/
def castErrorMessage (id : String) : String :=
  "Cast to ObjectId failed for value \"" ++ id ++
    "\" (type string) at path \"_id\" for model \"Analysis\""

/-- Mongoose `Analysis.findById` as awaited on a client-supplied string
(`src/unnamed/part_000:146`): a string that cannot be cast to an
ObjectId rejects with a `CastError`; a castable string resolves the
document, or `null` when none exists. -/
def findByIdChecked (store : Store) (id : String) :
    Except String (Option AnalysisRecord) :=
  if isValidObjectId id then .ok (findById store id)
  else .error (castErrorMessage id)

/-- `Analysis.findByIdAndUpdate` (mongoose): applies the update to the
document with the given `_id`; resolves without touching the collection
when no such document exists (mongoose resolves `null` in that case —
it does not throw). -/
def findByIdAndUpdate (store : Store) (id : String)
    (f : AnalysisRecord → AnalysisRecord) : Store :=
  store.map (fun p => if p.1 == id then (p.1, f p.2) else p)

/-- The update document `{ status: 'processing' }`
(`src/unnamed/part_000:171`): only `status` is written. -/
def setProcessing (r : AnalysisRecord) : AnalysisRecord :=
  { r with status := .processing }

/-- The update document `{ status: 'completed', results }`
(`src/unnamed/part_000:183-186`): status and results are written by the
same update. -/
def setCompleted (r : AnalysisRecord) (res : AnalysisResults) : AnalysisRecord :=
  { r with status := .completed, results := some res }

/-- The update document `{ status: 'failed' }`
(`src/unnamed/part_000:192-194`): only `status` is written. -/
def setFailed (r : AnalysisRecord) : AnalysisRecord :=
  { r with status := .failed }

/-- An incoming multipart upload: the `userId`/`shopId` form fields and
the `video` file part (its original name, declared MIME type and size). -/
structure UploadRequest where
  userId : String
  shopId : String
  originalname : String
  mimetype : String
  size : Nat
deriving DecidableEq, Repr

/-- The multer `fileFilter` (`src/unnamed/part_000:45-52`): accept only
`video/mp4` and `video/quicktime`. -/
def fileFilterAccepts (mimetype : String) : Bool :=
  mimetype == "video/mp4" || mimetype == "video/quicktime"

/-- The multer `limits.fileSize` ceiling: `100 * 1024 * 1024` bytes. -/
def uploadSizeLimit : Nat := 100 * 1024 * 1024

/-- Multer accepts the file iff the MIME type passes the filter and the
size is within the ceiling. -/
def uploadAccepts (req : UploadRequest) : Bool :=
  fileFilterAccepts req.mimetype && decide (req.size ≤ uploadSizeLimit)

/-- The multer `storage.filename` scheme
(`src/unnamed/part_000:37-39`, `src/server.js:25-27`):
`Date.now() + '-' + file.originalname`, with `Date.now()` modelled as a
natural number rendered in decimal exactly as JS renders it. -/
def uploadFilename (ts : Nat) (originalname : String) : String :=
  Nat.repr ts ++ "-" ++ originalname

/-- The `process.env.HOST` base URL used to build `videoUrl`
(`src/unnamed/part_000:120`); opaque configuration, held abstract as a
fixed string. -/
def hostBase : String := "HOST"

/-- A JSON response of the upload and analysis endpoints: HTTP status
code, the `success` flag, and the optional `error` / `videoId` /
`message` fields. -/
structure ApiResponse where
  statusCode : Nat
  success : Bool
  error : Option String
  videoId : Option String
  message : Option String
deriving DecidableEq, Repr

/-- The whole backend state: the `Analysis` collection, the set of ids
whose `pending → processing` update has been initiated by `startAnalysis`
but has not yet been applied by the database (the un-awaited
`findByIdAndUpdate` of `src/unnamed/part_000:171`), the ids whose
`setTimeout` completion callback is scheduled but has not yet run
(`src/unnamed/part_000:177-196`), and the filenames persisted in
`uploads/`. -/
structure SysState where
  store : Store
  procTasks : List String
  jobs : List String
  files : List String
deriving DecidableEq, Repr

/-- The state at process start: empty collection, nothing scheduled. -/
def initState : SysState :=
  { store := [], procTasks := [], jobs := [], files := [] }

/-- The `new Analysis({...})` document created by the upload handler
(`src/unnamed/part_000:116-122`): `pending`, no results, `videoId` set to
the stored filename and `videoUrl` derived from it. -/
def uploadRecord (ts : Nat) (req : UploadRequest) : AnalysisRecord :=
  { userId := req.userId
    shopId := req.shopId
    videoId := uploadFilename ts req.originalname
    videoUrl := hostBase ++ "/uploads/" ++ uploadFilename ts req.originalname
    status := .pending
    results := none
    createdAt := ts }

/-- The `POST /api/upload-video` handler of the MongoDB-backed server
(`src/unnamed/part_000:111-141`) together with the multer middleware.
On an accepted file: the artifact is persisted under
`uploadFilename ts originalname`, a new `Analysis` document is saved at
`pending` (the handler awaits this save), `startAnalysis` is invoked
without `await` — so only the initiation of its `processing` update is
recorded, in `procTasks` — and the `200 {success:true, videoId, message}`
acknowledgement is returned.  On a rejected file nothing is persisted and
no record is created; the rejection body is the multer error surfaced as
`400 {success:false, error}` (the error wiring spelled out by the second
server in `src/unnamed/part_000:509-516`). -/
def uploadVideo (s : SysState) (ts : Nat) (newId : String)
    (req : UploadRequest) : SysState × ApiResponse :=
  if fileFilterAccepts req.mimetype then
    if req.size ≤ uploadSizeLimit then
      ({ store := s.store ++ [(newId, uploadRecord ts req)]
         procTasks := s.procTasks ++ [newId]
         jobs := s.jobs
         files := s.files ++ [uploadFilename ts req.originalname] },
       { statusCode := 200
         success := true
         error := none
         videoId := some newId
         message := some "Video uploaded successfully. Analysis is now in progress." })
    else
      (s, { statusCode := 400, success := false
            error := some "File too large", videoId := none, message := none })
  else
    (s, { statusCode := 400, success := false
          error := some "Invalid file type. Only MP4 and MOV are allowed."
          videoId := none, message := none })

/-- The body of the `setTimeout` callback in `startAnalysis`
(`src/unnamed/part_000:177-196`): on success the record is updated to
`completed` with the `simulateAIAnalysis` results in a single update; any
error thrown inside the `try` block is caught by the `catch` and the
record is updated to `failed`.  `err` says whether the try block threw
(the only fallible operation is the external database update), and `rng`
is the random source consumed by `simulateAIAnalysis`. -/
def runDeferred (store : Store) (id : String) (err : Bool)
    (rng : Nat → Nat) : Store :=
  if err then
    findByIdAndUpdate store id setFailed
  else
    findByIdAndUpdate store id (fun r => setCompleted r (simulateAIAnalysis rng))

/-- The effect of invoking `startAnalysis` (`src/unnamed/part_000:168-204`)
for an id once its un-awaited `processing` update completes: the record is
set to `processing` and the deferred completion callback is scheduled.
The function has no guard on the record's current status. -/
def startAnalysisAgain (s : SysState) (id : String) : SysState :=
  { s with
    store := findByIdAndUpdate s.store id setProcessing
    jobs := s.jobs ++ [id] }

/-- One observable event of the running server. -/
inductive Event where
  /-- A `POST /api/upload-video` request at time `ts`, for which Mongo
  generates the document id `newId`. -/
  | upload (ts : Nat) (newId : String) (req : UploadRequest)
  /-- The un-awaited `findByIdAndUpdate(analysisId, {status:'processing'})`
  initiated by `startAnalysis` completes, and the `setTimeout` completion
  callback is then scheduled (`src/unnamed/part_000:171-196`). -/
  | applyProcessing (id : String)
  /-- The deferred completion callback fires. -/
  | runJob (id : String) (err : Bool) (rng : Nat → Nat)
  /-- A `GET /api/analysis/:id` request: a pure read. -/
  | query (id : String)

/-- Semantics of one event. -/
def applyEvent (s : SysState) : Event → SysState
  | .upload ts newId req => (uploadVideo s ts newId req).1
  | .applyProcessing id =>
      { s with
        store := findByIdAndUpdate s.store id setProcessing
        procTasks := s.procTasks.erase id
        jobs := s.jobs ++ [id] }
  | .runJob id err rng =>
      { s with
        store := runDeferred s.store id err rng
        jobs := s.jobs.erase id }
  | .query _ => s

/-- Enabledness of an event.  An upload that is accepted uses a fresh
Mongo `_id` (Mongo-generated ObjectIds are valid ObjectId strings,
globally unique and never reused); `applyProcessing` and `runJob` fire
only for their scheduled id. -/
def enabled (s : SysState) : Event → Bool
  | .upload _ newId req =>
      !uploadAccepts req ||
        (isValidObjectId newId &&
         (findById s.store newId).isNone &&
         !(decide (newId ∈ s.procTasks)) && !(decide (newId ∈ s.jobs)))
  | .applyProcessing id => decide (id ∈ s.procTasks)
  | .runJob id _ _ => decide (id ∈ s.jobs)
  | .query _ => true

/-- The states the server can reach from process start. -/
inductive Reachable : SysState → Prop where
  | init : Reachable initState
  | step {s : SysState} {e : Event} :
      Reachable s → enabled s e = true → Reachable (applyEvent s e)

/-- Response of `GET /api/analysis/:id`. -/
inductive QueryResponse where
  /-- `404 {success:false, error}` -/
  | notFound (statusCode : Nat) (error : String)
  /-- `500 {success:false, error}` — produced by the handler's `catch`
  from the message of whatever `findById` rejected with. -/
  | failure (statusCode : Nat) (error : String)
  /-- `200 {success:true, analysis}` — the whole document is returned. -/
  | found (analysis : AnalysisRecord)
deriving DecidableEq, Repr

/-- Whether the response carries `success:true`. -/
def QueryResponse.isSuccess : QueryResponse → Bool
  | .found _ => true
  | .notFound _ _ => false
  | .failure _ _ => false

/-- The `GET /api/analysis/:id` handler of the MongoDB-backed server
(`src/unnamed/part_000:144-165`): awaits `findById` on the raw request
parameter — a malformed id rejects with a `CastError`, which the `catch`
(lines 159-164) converts into `500 {success:false, error:message}`;
otherwise 404 with `"Analysis not found"` when there is no document, or
200 with the document. -/
def getAnalysis (store : Store) (id : String) : QueryResponse :=
  match findByIdChecked store id with
  | .error msg => .failure 500 msg
  | .ok none => .notFound 404 "Analysis not found"
  | .ok (some a) => .found a

/-- The `POST /api/upload-video` handler of the minimal mock server
(`src/server.js:62-80`): its multer configuration
(`src/server.js:30-33`) has the 100 MB size limit but **no**
`fileFilter`, so any declared MIME type is accepted.  No `Analysis`
record exists in this server; an accepted file is persisted by
`multer.diskStorage` and acknowledged with
`{success:true, videoId:'test-'+Date.now(), message}`.  A missing file
part yields `400 "No file was uploaded"`; an oversized file is refused
by multer (no error middleware is installed, so the refusal surfaces
through the default express error handler). -/
def serverJsUploadVideo (files : List String) (ts : Nat)
    (file : Option UploadRequest) : List String × ApiResponse :=
  match file with
  | none =>
      (files, { statusCode := 400, success := false
                error := some "No file was uploaded"
                videoId := none, message := none })
  | some f =>
      if f.size ≤ uploadSizeLimit then
        (files ++ [uploadFilename ts f.originalname],
         { statusCode := 200, success := true, error := none
           videoId := some ("test-" ++ Nat.repr ts)
           message := some "Video upload received successfully" })
      else
        (files, { statusCode := 500, success := false
                  error := some "File too large"
                  videoId := none, message := none })

/-- A `{ time, label }` marker of the richer mock payload
(`src/unnamed/part_000:563-567`). -/
structure TimeMarker where
  time : Nat
  label : String
deriving DecidableEq, Repr

/-- A `{ name, value }` entry of the `patterns` list of the mock
payloads (`src/server.js:128-134`). -/
structure PatternStat where
  name : String
  value : Nat
deriving DecidableEq, Repr

/-- `technique` section of a mock payload; `timeMarkers` is present only
in the richer mock variant, hence optional. -/
structure MockTechnique where
  overallScore : Nat
  feedback : List String
  detailedMetrics : TechniqueMetrics
  timeMarkers : Option (List TimeMarker)
deriving DecidableEq, Repr

/-- `footwork` section of a mock payload. -/
structure MockFootwork where
  overallScore : Nat
  feedback : List String
  detailedMetrics : FootworkMetrics
  timeMarkers : Option (List TimeMarker)
deriving DecidableEq, Repr

/-- `strategy` section of a mock payload. -/
structure MockStrategy where
  overallScore : Nat
  feedback : List String
  patterns : List PatternStat
  timeMarkers : Option (List TimeMarker)
deriving DecidableEq, Repr

/-- The `results` object of a mock payload. -/
structure MockResults where
  technique : MockTechnique
  footwork : MockFootwork
  strategy : MockStrategy
deriving DecidableEq, Repr

/-- The `analysis` object returned by the mock `GET /api/analysis/:id`
endpoints. -/
structure MockAnalysis where
  videoUrl : String
  status : String
  results : MockResults
deriving DecidableEq, Repr

/-- A full mock query response: HTTP status code, `success` flag and the
`analysis` object. -/
structure MockQueryResponse where
  statusCode : Nat
  success : Bool
  analysis : MockAnalysis
deriving DecidableEq, Repr

/-- The hardcoded `results` of `src/server.js:90-136`. -/
def serverJsMockResults : MockResults :=
  { technique :=
      { overallScore := 78
        feedback :=
          [ "Good racket preparation on your forehand side"
          , "Try to maintain a higher elbow position during backhand strokes"
          , "Your follow-through is excellent on smashes"
          , "Work on wrist positioning during net shots" ]
        detailedMetrics :=
          { backswing := 82, followThrough := 75
            contactPoint := 68, racketPath := 86 }
        timeMarkers := none }
    footwork :=
      { overallScore := 72
        feedback :=
          [ "Your split-step timing is good"
          , "Work on faster recovery to the center court"
          , "Good lateral movement on the forehand side"
          , "Try to use more chassÃ© steps when moving to the backhand corner" ]
        detailedMetrics :=
          { movementEfficiency := 70, recoverySpeed := 65, courtCoverage := 80 }
        timeMarkers := none }
    strategy :=
      { overallScore := 75
        feedback :=
          [ "Good variety in your shot selection"
          , "Try to use more attacking clears when opponent is at front court"
          , "Effective use of drop shots"
          , "Work on deception in your shot preparation" ]
        patterns :=
          [ { name := "Net shots", value := 32 }
          , { name := "Clears", value := 28 }
          , { name := "Drops", value := 18 }
          , { name := "Drives", value := 12 }
          , { name := "Smashes", value := 10 } ]
        timeMarkers := none } }

/-- The `GET /api/analysis/:id` handler of `src/server.js:83-139`:
ignores `id` entirely and answers 200 with the same hardcoded
`completed` payload. -/
def serverJsGetAnalysis (id : String) : MockQueryResponse :=
  { statusCode := 200
    success := true
    analysis :=
      { videoUrl := "https://example.com/sample-video.mp4"
        status := "completed"
        results := serverJsMockResults } }

/-- The hardcoded `results` of the richer mock server
(`src/unnamed/part_000:548-609`), which additionally carries
`timeMarkers` in each section. -/
def mockServerResults : MockResults :=
  { technique :=
      { overallScore := 78
        feedback :=
          [ "Good racket preparation on your forehand side"
          , "Try to maintain a higher elbow position during backhand strokes"
          , "Your follow-through is excellent on smashes"
          , "Work on wrist positioning during net shots" ]
        detailedMetrics :=
          { backswing := 82, followThrough := 75
            contactPoint := 68, racketPath := 86 }
        timeMarkers := some
          [ { time := 15, label := "Good forehand technique" }
          , { time := 42, label := "Backhand needs improvement" }
          , { time := 78, label := "Excellent smash execution" } ] }
    footwork :=
      { overallScore := 72
        feedback :=
          [ "Your split-step timing is good"
          , "Work on faster recovery to the center court"
          , "Good lateral movement on the forehand side"
          , "Try to use more chassé steps when moving to the backhand corner" ]
        detailedMetrics :=
          { movementEfficiency := 70, recoverySpeed := 65, courtCoverage := 80 }
        timeMarkers := some
          [ { time := 28, label := "Good split-step" }
          , { time := 56, label := "Slow recovery to center" }
          , { time := 92, label := "Efficient forehand movement" } ] }
    strategy :=
      { overallScore := 75
        feedback :=
          [ "Good variety in your shot selection"
          , "Try to use more attacking clears when opponent is at front court"
          , "Effective use of drop shots"
          , "Work on deception in your shot preparation" ]
        patterns :=
          [ { name := "Net shots", value := 32 }
          , { name := "Clears", value := 28 }
          , { name := "Drops", value := 18 }
          , { name := "Drives", value := 12 }
          , { name := "Smashes", value := 10 } ]
        timeMarkers := some
          [ { time := 35, label := "Good shot variation" }
          , { time := 68, label := "Missed attacking opportunity" }
          , { time := 105, label := "Effective defensive play" } ] } }

/-- The `GET /api/analysis/:id` handler of the second server in
`src/unnamed/part_000` (lines 541-612): ignores `id` and answers 200
with the same hardcoded `completed` payload. -/
def mockServerGetAnalysis (id : String) : MockQueryResponse :=
  { statusCode := 200
    success := true
    analysis :=
      { videoUrl := "https://example.com/sample-video.mp4"
        status := "completed"
        results := mockServerResults } }

/-- The inductive system invariant:
1. per id, at most one processing-update or deferred callback is in
   flight;
2. an id with an in-flight processing-update points at a `pending`
   record;
3. an id with a scheduled deferred callback points at a `processing`
   record;
4. every record carries a results payload exactly when it is
   `completed`;
5. every stored `_id` is a valid Mongo-generated ObjectId string. -/
def Inv (s : SysState) : Prop :=
  (∀ id, s.procTasks.count id + s.jobs.count id ≤ 1) ∧
  (∀ id, id ∈ s.procTasks →
    ∃ r, findById s.store id = some r ∧ r.status = .pending) ∧
  (∀ id, id ∈ s.jobs →
    ∃ r, findById s.store id = some r ∧ r.status = .processing) ∧
  (∀ id r, findById s.store id = some r →
    (r.results.isSome = true ↔ r.status = .completed)) ∧
  (∀ id r, findById s.store id = some r → isValidObjectId id = true)

/-- Decimal digit characters of a natural number, most significant
first: a structurally recursive reformulation of the fuel-based
`Nat.toDigits 10` used by `Nat.repr`, for reasoning about the
`Date.now() + '-' + originalname` filename scheme. -/
def natDigits (n : Nat) : List Char :=
  if h : n < 10 then [Nat.digitChar n]
  else natDigits (n / 10) ++ [Nat.digitChar (n % 10)]
decreasing_by
  exact Nat.div_lt_self (by omega) (by omega)

/-- Value of a list of decimal digit characters. -/
def digitsVal (cs : List Char) : Nat :=
  List.foldl (fun a c => 10 * a + (c.toNat - 48)) 0 cs

/-- A well-formed 5 MB `video/mp4` upload (the §8 scenario of the spec). -/
def mp4Req : UploadRequest :=
  { userId := "u1", shopId := "s1", originalname := "match.mp4"
    mimetype := "video/mp4", size := 5 * 1024 * 1024 }

/-- A PDF upload (the §8 rejection scenario of the spec). -/
def pdfReq : UploadRequest :=
  { userId := "u1", shopId := "s1", originalname := "doc.pdf"
    mimetype := "application/pdf", size := 1024 }

/-- A concrete random source for exercising `simulateAIAnalysis`. -/
def rng0 : Nat → Nat := fun _ => 0

/-- A concrete Mongo-generated ObjectId (24 hexadecimal characters). -/
def oid1 : String := "aaaaaaaaaaaaaaaaaaaaaa01"

/-- A second, distinct Mongo-generated ObjectId. -/
def oid2 : String := "aaaaaaaaaaaaaaaaaaaaaa02"

/-- The state right after one accepted upload at `ts = 5` with fresh id
`oid1`: the moment the acknowledgement is produced. -/
def demoUploaded : SysState := (uploadVideo initState 5 oid1 mp4Req).1

/-- `demoUploaded` after the un-awaited `processing` update lands. -/
def demoProcessing : SysState :=
  applyEvent demoUploaded (.applyProcessing oid1)

/-- `demoProcessing` after the deferred completion callback succeeds. -/
def demoCompleted : SysState :=
  applyEvent demoProcessing (.runJob oid1 false rng0)

/-- The record held under `oid1` in `demoCompleted`: the upload record
taken through the `processing` and `completed` updates. -/
def demoCompletedRec : AnalysisRecord :=
  setCompleted (setProcessing (uploadRecord 5 mp4Req)) (simulateAIAnalysis rng0)

/-- A standalone `processing` record, for exercising the deferred step. -/
def demoProcRec : AnalysisRecord :=
  { userId := "u1", shopId := "s1", videoId := "5-match.mp4"
    videoUrl := "HOST/uploads/5-match.mp4", status := .processing
    results := none, createdAt := 5 }

/-- A one-record store holding `demoProcRec` under id `"a"`. -/
def demoProcStore : Store := [("a", demoProcRec)]

/-- A state holding one `completed` record with results attached and no
scheduled work: the situation in which the spec discusses a second
`submit`. -/
def demoTerminalState : SysState :=
  { store := [("a",
      { demoProcRec with
        status := .completed
        results := some (simulateAIAnalysis rng0) })]
    procTasks := [], jobs := [], files := ["5-match.mp4"] }

theorem findById_cons {p : String × AnalysisRecord} {t : Store} {id : String} :
    findById (p :: t) id =
      if (p.1 == id) = true then some p.2 else findById t id := by
  simp only [findById, List.find?]
  cases hp : (p.1 == id) <;> simp [hp]

theorem findByIdAndUpdate_cons {p : String × AnalysisRecord} {t : Store}
    {id : String} {f : AnalysisRecord → AnalysisRecord} :
    findByIdAndUpdate (p :: t) id f =
      (if (p.1 == id) = true then (p.1, f p.2) else p) :: findByIdAndUpdate t id f :=
  rfl

theorem findById_append_of_some {store : Store} {id : String}
    {r : AnalysisRecord} (l : Store) (h : findById store id = some r) :
    findById (store ++ l) id = some r := by
  induction store with
  | nil => simp [findById] at h
  | cons p t ih =>
    rw [findById_cons] at h
    rw [List.cons_append, findById_cons]
    by_cases hp : (p.1 == id) = true
    · rw [if_pos hp] at h
      rw [if_pos hp]
      exact h
    · rw [if_neg hp] at h
      rw [if_neg hp]
      exact ih h

theorem findById_append_self {store : Store} {id : String}
    (r : AnalysisRecord) (h : findById store id = none) :
    findById (store ++ [(id, r)]) id = some r := by
  induction store with
  | nil => simp [findById]
  | cons p t ih =>
    rw [findById_cons] at h
    rw [List.cons_append, findById_cons]
    by_cases hp : (p.1 == id) = true
    · rw [if_pos hp] at h
      exact absurd h (by simp)
    · rw [if_neg hp] at h
      rw [if_neg hp]
      exact ih h

theorem findById_update_self {store : Store} {id : String}
    {r : AnalysisRecord} (f : AnalysisRecord → AnalysisRecord)
    (h : findById store id = some r) :
    findById (findByIdAndUpdate store id f) id = some (f r) := by
  induction store with
  | nil => simp [findById] at h
  | cons p t ih =>
    rw [findById_cons] at h
    rw [findByIdAndUpdate_cons, findById_cons]
    by_cases hp : (p.1 == id) = true
    · rw [if_pos hp] at h
      rw [if_pos hp]
      rw [if_pos (show ((p.1, f p.2).1 == id) = true from hp)]
      exact congrArg some (congrArg f (Option.some.inj h))
    · rw [if_neg hp] at h
      rw [if_neg hp, if_neg hp]
      exact ih h

theorem findById_update_ne {store : Store} {id id' : String}
    (f : AnalysisRecord → AnalysisRecord) (h : id ≠ id') :
    findById (findByIdAndUpdate store id' f) id = findById store id := by
  induction store with
  | nil => simp [findById, findByIdAndUpdate]
  | cons p t ih =>
    rw [findByIdAndUpdate_cons, findById_cons, findById_cons]
    by_cases hp : (p.1 == id') = true
    · have hpe : p.1 = id' := by simpa using hp
      have hpid : ¬((p.1 == id) = true) := by
        simp only [beq_iff_eq, hpe]
        exact fun hh => h hh.symm
      rw [if_pos hp]
      rw [if_neg (show ¬(((p.1, f p.2).1 == id) = true) from hpid), if_neg hpid]
      exact ih
    · rw [if_neg hp]
      by_cases hq : (p.1 == id) = true
      · rw [if_pos hq, if_pos hq]
      · rw [if_neg hq, if_neg hq]
        exact ih

theorem findByIdAndUpdate_absent {store : Store} {id : String}
    (f : AnalysisRecord → AnalysisRecord) (h : findById store id = none) :
    findByIdAndUpdate store id f = store := by
  induction store with
  | nil => rfl
  | cons p t ih =>
    rw [findById_cons] at h
    rw [findByIdAndUpdate_cons]
    by_cases hp : (p.1 == id) = true
    · rw [if_pos hp] at h
      exact absurd h (by simp)
    · rw [if_neg hp] at h
      rw [if_neg hp, ih h]

theorem uploadVideo_rejected {s : SysState} {ts : Nat} {newId : String}
    {req : UploadRequest} (h : uploadAccepts req = false) :
    (uploadVideo s ts newId req).1 = s := by
  simp only [uploadAccepts, Bool.and_eq_false_iff] at h
  unfold uploadVideo
  rcases h with h | h
  · rw [if_neg (by simp [h])]
  · by_cases hf : fileFilterAccepts req.mimetype = true
    · rw [if_pos hf, if_neg (by simpa using h)]
    · rw [if_neg hf]

theorem uploadVideo_accepted {s : SysState} {ts : Nat} {newId : String}
    {req : UploadRequest} (h : uploadAccepts req = true) :
    uploadVideo s ts newId req =
      ({ store := s.store ++ [(newId, uploadRecord ts req)]
         procTasks := s.procTasks ++ [newId]
         jobs := s.jobs
         files := s.files ++ [uploadFilename ts req.originalname] },
       { statusCode := 200
         success := true
         error := none
         videoId := some newId
         message := some "Video uploaded successfully. Analysis is now in progress." }) := by
  simp only [uploadAccepts, Bool.and_eq_true, decide_eq_true_eq] at h
  unfold uploadVideo
  rw [if_pos h.1, if_pos h.2]

theorem enabled_upload_accepted {s : SysState} {ts : Nat} {newId : String}
    {req : UploadRequest} (hacc : uploadAccepts req = true)
    (he : enabled s (.upload ts newId req) = true) :
    isValidObjectId newId = true ∧ findById s.store newId = none ∧
      newId ∉ s.procTasks ∧ newId ∉ s.jobs := by
  simp only [enabled, hacc, Bool.not_true, Bool.false_or, Bool.and_eq_true,
    Bool.not_eq_true', decide_eq_false_iff_not, Option.isNone_iff_eq_none] at he
  exact ⟨he.1.1.1, he.1.1.2, he.1.2, he.2⟩

theorem getAnalysis_found {store : Store} {id : String} {r : AnalysisRecord}
    (hv : isValidObjectId id = true) (h : findById store id = some r) :
    getAnalysis store id = .found r := by
  unfold getAnalysis findByIdChecked
  rw [if_pos hv, h]

theorem findById_append_cases {store : Store} {k id : String}
    {v r : AnalysisRecord}
    (h : findById (store ++ [(k, v)]) id = some r) :
    findById store id = some r ∨
      (findById store id = none ∧ k = id ∧ r = v) := by
  induction store with
  | nil =>
    right
    rw [List.nil_append, findById_cons] at h
    by_cases hk : (k == id) = true
    · rw [if_pos (show (((k, v)).1 == id) = true from hk)] at h
      exact ⟨rfl, by simpa using hk, (Option.some.inj h).symm⟩
    · rw [if_neg (show ¬((((k, v)).1 == id) = true) from hk)] at h
      exact absurd h (by simp [findById])
  | cons p t ih =>
    rw [List.cons_append, findById_cons] at h
    rw [findById_cons]
    by_cases hp : (p.1 == id) = true
    · rw [if_pos hp] at h
      rw [if_pos hp]
      exact .inl h
    · rw [if_neg hp] at h
      rw [if_neg hp]
      exact ih h

theorem inv_init : Inv initState := by
  refine ⟨fun id => ?_, fun id h => ?_, fun id h => ?_, fun id r h => ?_,
    fun id r h => ?_⟩
  · simp [initState]
  · simp [initState] at h
  · simp [initState] at h
  · simp [initState, findById] at h
  · simp [initState, findById] at h

theorem inv_step {s : SysState} {e : Event}
    (hinv : Inv s) (he : enabled s e = true) : Inv (applyEvent s e) := by
  obtain ⟨h1, h2, h3, h4, h5⟩ := hinv
  cases e with
  | query id => exact ⟨h1, h2, h3, h4, h5⟩
  | upload ts newId req =>
    by_cases hacc : uploadAccepts req = true
    · obtain ⟨hfv, hf1, hf2, hf3⟩ := enabled_upload_accepted hacc he
      show Inv (uploadVideo s ts newId req).1
      rw [uploadVideo_accepted hacc]
      refine ⟨fun id => ?_, fun id h => ?_, fun id h => ?_, fun id r h => ?_,
        fun id r h => ?_⟩
      · by_cases hid : id = newId
        · subst hid
          have hc1 : s.procTasks.count id = 0 := List.count_eq_zero_of_not_mem hf2
          have hc2 : s.jobs.count id = 0 := List.count_eq_zero_of_not_mem hf3
          simp [List.count_append, hc1, hc2]
        · have : List.count id [newId] = 0 :=
            List.count_eq_zero_of_not_mem (by simp [hid])
          simp only [List.count_append, this]
          simpa using h1 id
      · simp only [List.mem_append, List.mem_singleton] at h
        rcases h with h | h
        · obtain ⟨r, hr, hst⟩ := h2 id h
          exact ⟨r, findById_append_of_some _ hr, hst⟩
        · subst h
          exact ⟨uploadRecord ts req, findById_append_self _ hf1, rfl⟩
      · obtain ⟨r, hr, hst⟩ := h3 id h
        exact ⟨r, findById_append_of_some _ hr, hst⟩
      · rcases findById_append_cases h with h | ⟨-, -, hrv⟩
        · exact h4 id r h
        · subst hrv
          simp [uploadRecord]
      · rcases findById_append_cases h with h | ⟨-, hki, -⟩
        · exact h5 id r h
        · rw [← hki]
          exact hfv
    · rw [Bool.not_eq_true] at hacc
      show Inv (uploadVideo s ts newId req).1
      rw [uploadVideo_rejected hacc]
      exact ⟨h1, h2, h3, h4, h5⟩
  | applyProcessing id0 =>
    simp only [enabled, decide_eq_true_eq] at he
    have hred : applyEvent s (.applyProcessing id0) =
        ⟨findByIdAndUpdate s.store id0 setProcessing,
          s.procTasks.erase id0, s.jobs ++ [id0], s.files⟩ := rfl
    rw [hred]
    obtain ⟨r0, hr0, hst0⟩ := h2 id0 he
    have hcount : s.procTasks.count id0 + s.jobs.count id0 ≤ 1 := h1 id0
    have hge : 1 ≤ s.procTasks.count id0 := List.one_le_count_iff.mpr he
    have hjobs0 : s.jobs.count id0 = 0 := by omega
    have hnotin : id0 ∉ s.jobs := List.count_eq_zero.mp hjobs0
    refine ⟨fun id => ?_, fun id h => ?_, fun id h => ?_, fun id r h => ?_,
      fun id r h => ?_⟩
    · show (s.procTasks.erase id0).count id + (s.jobs ++ [id0]).count id ≤ 1
      by_cases hid : id = id0
      · subst hid
        simp only [List.count_erase_self, List.count_append,
          List.count_singleton_self, hjobs0]
        omega
      · have h0 : List.count id [id0] = 0 :=
          List.count_eq_zero_of_not_mem (by simp [hid])
        simp only [List.count_erase_of_ne hid, List.count_append, h0]
        simpa using h1 id
    · show ∃ r, findById (findByIdAndUpdate s.store id0 setProcessing) id =
          some r ∧ r.status = .pending
      have hmem : id ∈ s.procTasks := List.mem_of_mem_erase h
      have hid : id ≠ id0 := by
        intro hh
        subst hh
        have hle : s.procTasks.count id ≤ 1 := by
          have := h1 id
          omega
        have : id ∉ s.procTasks.erase id :=
          List.count_eq_zero.mp (by simp [List.count_erase_self]; omega)
        exact this h
      obtain ⟨r, hr, hst⟩ := h2 id hmem
      exact ⟨r, by rw [findById_update_ne _ hid]; exact hr, hst⟩
    · show ∃ r, findById (findByIdAndUpdate s.store id0 setProcessing) id =
          some r ∧ r.status = .processing
      simp only [List.mem_append, List.mem_singleton] at h
      rcases h with h | h
      · have hid : id ≠ id0 := fun hh => hnotin (hh ▸ h)
        obtain ⟨r, hr, hst⟩ := h3 id h
        exact ⟨r, by rw [findById_update_ne _ hid]; exact hr, hst⟩
      · subst h
        exact ⟨setProcessing r0, findById_update_self _ hr0, rfl⟩
    · by_cases hid : id = id0
      · subst hid
        rw [findById_update_self _ hr0] at h
        have hr := Option.some.inj h
        subst hr
        cases hres : r0.results with
        | some v =>
          have := (h4 id r0 hr0).mp (by simp [hres])
          rw [this] at hst0
          exact absurd hst0 (by intro hh; cases hh)
        | none => simp [setProcessing, hres]
      · rw [findById_update_ne _ hid] at h
        exact h4 id r h
    · by_cases hid : id = id0
      · subst hid
        exact h5 id r0 hr0
      · rw [findById_update_ne _ hid] at h
        exact h5 id r h
  | runJob id0 err rng =>
    simp only [enabled, decide_eq_true_eq] at he
    have hred : applyEvent s (.runJob id0 err rng) =
        ⟨runDeferred s.store id0 err rng,
          s.procTasks, s.jobs.erase id0, s.files⟩ := rfl
    rw [hred]
    obtain ⟨r0, hr0, hst0⟩ := h3 id0 he
    have hcount : s.procTasks.count id0 + s.jobs.count id0 ≤ 1 := h1 id0
    have hge : 1 ≤ s.jobs.count id0 := List.one_le_count_iff.mpr he
    have hproc0 : s.procTasks.count id0 = 0 := by omega
    have hnotin : id0 ∉ s.procTasks := List.count_eq_zero.mp hproc0
    refine ⟨fun id => ?_, fun id h => ?_, fun id h => ?_, fun id r h => ?_,
      fun id r h => ?_⟩
    · show s.procTasks.count id + (s.jobs.erase id0).count id ≤ 1
      by_cases hid : id = id0
      · subst hid
        simp only [List.count_erase_self]
        omega
      · simp only [List.count_erase_of_ne hid]
        exact h1 id
    · show ∃ r, findById (runDeferred s.store id0 err rng) id =
          some r ∧ r.status = .pending
      have hid : id ≠ id0 := fun hh => hnotin (hh ▸ h)
      obtain ⟨r, hr, hst⟩ := h2 id h
      refine ⟨r, ?_, hst⟩
      unfold runDeferred
      cases err with
      | true => rw [if_pos rfl, findById_update_ne _ hid]; exact hr
      | false => rw [if_neg (by simp), findById_update_ne _ hid]; exact hr
    · show ∃ r, findById (runDeferred s.store id0 err rng) id =
          some r ∧ r.status = .processing
      have hmem : id ∈ s.jobs := List.mem_of_mem_erase h
      have hid : id ≠ id0 := by
        intro hh
        subst hh
        have : id ∉ s.jobs.erase id :=
          List.count_eq_zero.mp (by simp [List.count_erase_self]; omega)
        exact this h
      obtain ⟨r, hr, hst⟩ := h3 id hmem
      refine ⟨r, ?_, hst⟩
      unfold runDeferred
      cases err with
      | true => rw [if_pos rfl, findById_update_ne _ hid]; exact hr
      | false => rw [if_neg (by simp), findById_update_ne _ hid]; exact hr
    · have hres0 : r0.results = none := by
        cases hres : r0.results with
        | some v =>
          have := (h4 id0 r0 hr0).mp (by simp [hres])
          rw [this] at hst0
          exact absurd hst0 (by intro hh; cases hh)
        | none => rfl
      by_cases hid : id = id0
      · subst hid
        unfold runDeferred at h
        cases err with
        | true =>
          rw [if_pos rfl, findById_update_self _ hr0] at h
          have hr := Option.some.inj h
          subst hr
          simp [setFailed, hres0]
        | false =>
          rw [if_neg (by simp), findById_update_self _ hr0] at h
          have hr := Option.some.inj h
          subst hr
          simp [setCompleted]
      · have : findById (runDeferred s.store id0 err rng) id =
            findById s.store id := by
          unfold runDeferred
          cases err with
          | true => rw [if_pos rfl, findById_update_ne _ hid]
          | false => rw [if_neg (by simp), findById_update_ne _ hid]
        rw [this] at h
        exact h4 id r h
    · by_cases hid : id = id0
      · subst hid
        exact h5 id r0 hr0
      · have hne2 : findById (runDeferred s.store id0 err rng) id =
            findById s.store id := by
          unfold runDeferred
          cases err with
          | true => rw [if_pos rfl, findById_update_ne _ hid]
          | false => rw [if_neg (by simp), findById_update_ne _ hid]
        rw [hne2] at h
        exact h5 id r h

theorem inv_reachable {s : SysState} (h : Reachable s) : Inv s := by
  induction h with
  | init => exact inv_init
  | step hr he ih => exact inv_step ih he

theorem statusLe_refl (a : Status) : statusLe a a = true := by
  cases a <;> decide

theorem digitChar_toNat {d : Nat} (h : d < 10) :
    (Nat.digitChar d).toNat - 48 = d := by
  interval_cases d <;> decide

theorem digitChar_isDigit {d : Nat} (h : d < 10) :
    (Nat.digitChar d).isDigit = true := by
  interval_cases d <;> decide

theorem toDigitsCore_eq (fuel n : Nat) (acc : List Char) (h : n < fuel) :
    Nat.toDigitsCore 10 fuel n acc = natDigits n ++ acc := by
  induction fuel generalizing n acc with
  | zero => omega
  | succ f ih =>
    show Nat.toDigitsCore 10 (f + 1) n acc = natDigits n ++ acc
    rw [Nat.toDigitsCore]
    by_cases h10 : n / 10 = 0
    · have hlt : n < 10 := by
        have := Nat.div_mul_le_self n 10
        by_contra hge
        rw [h10] at this
        omega
      simp only [h10, if_pos rfl]
      rw [natDigits, dif_pos hlt, Nat.mod_eq_of_lt hlt]
      rfl
    · have hge : 10 ≤ n := by
        by_contra hlt
        exact h10 (Nat.div_eq_of_lt (by omega))
      have hdiv : n / 10 < n := Nat.div_lt_self (by omega) (by omega)
      simp only [if_neg h10]
      rw [ih (n / 10) (Nat.digitChar (n % 10) :: acc) (by omega)]
      have hnd : natDigits n = natDigits (n / 10) ++ [Nat.digitChar (n % 10)] := by
        rw [natDigits]
        rw [dif_neg (by omega)]
      rw [hnd]
      simp

theorem nat_repr_data (n : Nat) : (Nat.repr n).data = natDigits n := by
  show (Nat.toDigits 10 n).asString.data = natDigits n
  rw [Nat.toDigits, toDigitsCore_eq (n + 1) n [] (Nat.lt_succ_self n)]
  simp [List.asString]

theorem natDigits_val (n : Nat) : digitsVal (natDigits n) = n := by
  induction n using Nat.strong_induction_on with
  | _ n ih =>
    by_cases h : n < 10
    · rw [natDigits, dif_pos h]
      show 10 * 0 + ((Nat.digitChar n).toNat - 48) = n
      rw [digitChar_toNat h]
      omega
    · have hdiv : n / 10 < n := Nat.div_lt_self (by omega) (by omega)
      rw [natDigits, dif_neg h]
      unfold digitsVal
      rw [List.foldl_append]
      show 10 * digitsVal (natDigits (n / 10)) +
        ((Nat.digitChar (n % 10)).toNat - 48) = n
      rw [ih (n / 10) hdiv, digitChar_toNat (Nat.mod_lt n (by omega))]
      omega

theorem natDigits_inj {m n : Nat} (h : natDigits m = natDigits n) : m = n := by
  have hm := natDigits_val m
  rw [h, natDigits_val] at hm
  exact hm.symm

theorem natDigits_no_dash (n : Nat) : Char.ofNat 45 ∉ natDigits n := by
  induction n using Nat.strong_induction_on with
  | _ n ih =>
    by_cases h : n < 10
    · rw [natDigits, dif_pos h]
      intro hmem
      rw [List.mem_singleton] at hmem
      have hd := digitChar_isDigit h
      rw [← hmem] at hd
      exact absurd hd (by decide)
    · have hdiv : n / 10 < n := Nat.div_lt_self (by omega) (by omega)
      rw [natDigits, dif_neg h]
      intro hmem
      rw [List.mem_append, List.mem_singleton] at hmem
      rcases hmem with hmem | hmem
      · exact ih (n / 10) hdiv hmem
      · have hd := digitChar_isDigit (Nat.mod_lt n (show 0 < 10 by omega))
        rw [← hmem] at hd
        exact absurd hd (by decide)

theorem sep_append_inj {l1 l2 m1 m2 : List Char}
    (h1 : Char.ofNat 45 ∉ l1) (h2 : Char.ofNat 45 ∉ l2)
    (h : l1 ++ Char.ofNat 45 :: m1 = l2 ++ Char.ofNat 45 :: m2) :
    l1 = l2 ∧ m1 = m2 := by
  induction l1 generalizing l2 with
  | nil =>
    cases l2 with
    | nil => simpa using h
    | cons c t =>
      rw [List.nil_append, List.cons_append] at h
      have hc := (List.cons.inj h).1
      exact absurd (by rw [hc]; exact List.mem_cons_self c t) h2
  | cons c t ih =>
    cases l2 with
    | nil =>
      rw [List.cons_append, List.nil_append] at h
      have hc := (List.cons.inj h).1
      exact absurd (by rw [← hc]; exact List.mem_cons_self c t) h1
    | cons c2 t2 =>
      rw [List.cons_append, List.cons_append] at h
      obtain ⟨hc, ht⟩ := List.cons.inj h
      have hrec := ih (fun hm => h1 (List.mem_cons_of_mem _ hm))
        (fun hm => h2 (List.mem_cons_of_mem _ hm)) ht
      exact ⟨by rw [hc, hrec.1], hrec.2⟩

theorem uploadFilename_inj {ts1 ts2 : Nat} {n1 n2 : String}
    (h : uploadFilename ts1 n1 = uploadFilename ts2 n2) :
    ts1 = ts2 ∧ n1 = n2 := by
  have hdash : ("-" : String).data = [Char.ofNat 45] := by decide
  have hd := congrArg String.data h
  simp only [uploadFilename, String.data_append, hdash,
    List.append_assoc, List.singleton_append] at hd
  rw [nat_repr_data, nat_repr_data] at hd
  obtain ⟨hts, hn⟩ :=
    sep_append_inj (natDigits_no_dash ts1) (natDigits_no_dash ts2) hd
  exact ⟨natDigits_inj hts, String.ext hn⟩

theorem reachable_demoUploaded : Reachable demoUploaded :=
  @Reachable.step initState (Event.upload 5 oid1 mp4Req)
    Reachable.init (by decide)

theorem reachable_demoProcessing : Reachable demoProcessing :=
  @Reachable.step demoUploaded (Event.applyProcessing oid1)
    reachable_demoUploaded (by decide)

theorem reachable_demoCompleted : Reachable demoCompleted :=
  @Reachable.step demoProcessing (Event.runJob oid1 false rng0)
    reachable_demoProcessing (by decide)

/-- Claim C1: For every `AnalysisRecord`, `status` only ever changes along
`pending → processing → {completed, failed}`: from any reachable state,
any enabled operation (an upload/submit, the completion of the deferred
processing update, the deferred completion callback, or a query) moves
each record's status forward in that order — so every reachable sequence
of status values is monotonically non-decreasing — and a record whose
status is `completed` or `failed` is never changed again by any
operation. -/
theorem status_transitions_monotone {s : SysState} {e : Event}
    (hs : Reachable s) (he : enabled s e = true)
    {id : String} {r r' : AnalysisRecord}
    (h : findById s.store id = some r)
    (h' : findById (applyEvent s e).store id = some r') :
    statusLe r.status r'.status = true ∧
      (r.status.isTerminal = true → r' = r) := by
  obtain ⟨h1, h2, h3, h4, h5⟩ := inv_reachable hs
  cases e with
  | query qid =>
    have hrr : r = r' := Option.some.inj (h.symm.trans h')
    cases hrr
    exact ⟨statusLe_refl _, fun _ => rfl⟩
  | upload ts newId req =>
    by_cases hacc : uploadAccepts req = true
    · have hstore : (applyEvent s (.upload ts newId req)).store =
          s.store ++ [(newId, uploadRecord ts req)] := by
        show (uploadVideo s ts newId req).1.store = _
        rw [uploadVideo_accepted hacc]
      rw [hstore] at h'
      have happ := findById_append_of_some [(newId, uploadRecord ts req)] h
      have hrr : r = r' := Option.some.inj (happ.symm.trans h')
      cases hrr
      exact ⟨statusLe_refl _, fun _ => rfl⟩
    · rw [Bool.not_eq_true] at hacc
      have hstore : (applyEvent s (.upload ts newId req)).store = s.store := by
        show (uploadVideo s ts newId req).1.store = s.store
        rw [uploadVideo_rejected hacc]
      rw [hstore] at h'
      have hrr : r = r' := Option.some.inj (h.symm.trans h')
      cases hrr
      exact ⟨statusLe_refl _, fun _ => rfl⟩
  | applyProcessing id0 =>
    simp only [enabled, decide_eq_true_eq] at he
    have hstore : (applyEvent s (.applyProcessing id0)).store =
        findByIdAndUpdate s.store id0 setProcessing := rfl
    rw [hstore] at h'
    by_cases hid : id = id0
    · subst hid
      obtain ⟨r0, hr0, hp0⟩ := h2 id he
      have h00 : r0 = r := Option.some.inj (hr0.symm.trans h)
      subst h00
      rw [findById_update_self setProcessing hr0] at h'
      have hr' : setProcessing r0 = r' := Option.some.inj h'
      cases hr'
      constructor
      · rw [hp0]
        show statusLe Status.pending Status.processing = true
        decide
      · intro ht
        rw [hp0] at ht
        exact absurd ht (by decide)
    · rw [findById_update_ne setProcessing hid] at h'
      have hrr : r = r' := Option.some.inj (h.symm.trans h')
      cases hrr
      exact ⟨statusLe_refl _, fun _ => rfl⟩
  | runJob id0 err rng =>
    simp only [enabled, decide_eq_true_eq] at he
    have hstore : (applyEvent s (.runJob id0 err rng)).store =
        runDeferred s.store id0 err rng := rfl
    rw [hstore] at h'
    by_cases hid : id = id0
    · subst hid
      obtain ⟨r0, hr0, hp0⟩ := h3 id he
      have h00 : r0 = r := Option.some.inj (hr0.symm.trans h)
      subst h00
      unfold runDeferred at h'
      cases err with
      | true =>
        rw [if_pos rfl, findById_update_self setFailed hr0] at h'
        have hr' : setFailed r0 = r' := Option.some.inj h'
        cases hr'
        constructor
        · rw [hp0]
          show statusLe Status.processing Status.failed = true
          decide
        · intro ht
          rw [hp0] at ht
          exact absurd ht (by decide)
      | false =>
        rw [if_neg (by simp), findById_update_self _ hr0] at h'
        have hr' : setCompleted r0 (simulateAIAnalysis rng) = r' :=
          Option.some.inj h'
        cases hr'
        constructor
        · rw [hp0]
          show statusLe Status.processing Status.completed = true
          decide
        · intro ht
          rw [hp0] at ht
          exact absurd ht (by decide)
    · have hne : findById (runDeferred s.store id0 err rng) id =
          findById s.store id := by
        unfold runDeferred
        cases err with
        | true => rw [if_pos rfl, findById_update_ne _ hid]
        | false => rw [if_neg (by simp), findById_update_ne _ hid]
      rw [hne] at h'
      have hrr : r = r' := Option.some.inj (h.symm.trans h')
      cases hrr
      exact ⟨statusLe_refl _, fun _ => rfl⟩

theorem status_transitions_monotone_witness :
    statusLe (uploadRecord 5 mp4Req).status
        (setProcessing (uploadRecord 5 mp4Req)).status = true ∧
      ((uploadRecord 5 mp4Req).status.isTerminal = true →
        setProcessing (uploadRecord 5 mp4Req) = uploadRecord 5 mp4Req) :=
  @status_transitions_monotone demoUploaded (Event.applyProcessing oid1)
    reachable_demoUploaded (by decide) oid1 (uploadRecord 5 mp4Req)
    (setProcessing (uploadRecord 5 mp4Req)) (by decide) (by decide)

/-- Claim C2: In every reachable state, a record's `results` payload is
present exactly when its status is `completed` (the completion update
writes status and results in one `findByIdAndUpdate`, so the attachment
is atomic with the transition); in particular a `failed` record never
carries any partial results, and `query` on it surfaces the record with
no results. -/
theorem results_iff_completed {s : SysState} (hs : Reachable s)
    {id : String} {r : AnalysisRecord} (h : findById s.store id = some r) :
    (r.results.isSome = true ↔ r.status = .completed) ∧
      (r.status = .failed → r.results = none) ∧
      getAnalysis s.store id = .found r := by
  obtain ⟨-, -, -, h4, h5⟩ := inv_reachable hs
  have hiff := h4 id r h
  refine ⟨hiff, fun hf => ?_, ?_⟩
  · cases hres : r.results with
    | none => rfl
    | some v =>
      have hc : r.status = .completed := hiff.mp (by simp [hres])
      rw [hc] at hf
      exact absurd hf (by decide)
  · exact getAnalysis_found (h5 id r h) h

theorem results_iff_completed_witness :
    (demoCompletedRec.results.isSome = true ↔
        demoCompletedRec.status = .completed) ∧
      (demoCompletedRec.status = .failed → demoCompletedRec.results = none) ∧
      getAnalysis demoCompleted.store oid1 = .found demoCompletedRec :=
  @results_iff_completed demoCompleted reachable_demoCompleted oid1
    demoCompletedRec (by decide)

/-- Claim C3, counterexample: The upload handler calls `startAnalysis`
without `await` and sends its acknowledgement immediately
(`src/unnamed/part_000:127-133`), so at the moment the `200` response is
produced the record is still `pending`: a query issued right after the
acknowledgement can observe `pending`, contradicting the claim that the
`pending → processing` transition is visible to every subsequent query
before the call returns. -/
theorem processing_not_visible_at_ack :
    (uploadVideo initState 5 oid1 mp4Req).2.statusCode = 200 ∧
      (uploadVideo initState 5 oid1 mp4Req).2.success = true ∧
      (findById demoUploaded.store oid1).map AnalysisRecord.status =
        some Status.pending ∧
      Status.pending ≠ Status.processing :=
  ⟨by decide, by decide, by decide, by decide⟩

/-- Claim C3, amended: `submit` (the hand-off to `startAnalysis`) creates
the record at `pending`, *initiates* the `pending → processing` update
before the acknowledgement is produced, and does not wait for analysis
completion; but the transition only becomes visible to queries once the
un-awaited database update lands, which may be after the acknowledgement.
Once that update is applied, queries observe `processing`. -/
theorem submit_initiates_processing {s : SysState} {ts : Nat} {id : String}
    {req : UploadRequest} (hacc : uploadAccepts req = true)
    (hfresh : findById s.store id = none) :
    (uploadVideo s ts id req).2.statusCode = 200 ∧
      (uploadVideo s ts id req).2.success = true ∧
      id ∈ (uploadVideo s ts id req).1.procTasks ∧
      (findById (uploadVideo s ts id req).1.store id).map
        AnalysisRecord.status = some Status.pending ∧
      (findById (applyEvent (uploadVideo s ts id req).1
          (.applyProcessing id)).store id).map
        AnalysisRecord.status = some Status.processing := by
  rw [uploadVideo_accepted hacc]
  have happ := findById_append_self (uploadRecord ts req) hfresh
  refine ⟨rfl, rfl, by simp, ?_, ?_⟩
  · rw [happ]
    rfl
  · show (findById (findByIdAndUpdate (s.store ++ [(id, uploadRecord ts req)])
        id setProcessing) id).map AnalysisRecord.status = some Status.processing
    rw [findById_update_self setProcessing happ]
    rfl

theorem submit_initiates_processing_witness :
    uploadAccepts mp4Req = true ∧
      findById initState.store oid1 = none ∧
      ((uploadVideo initState 5 oid1 mp4Req).2.statusCode = 200 ∧
        (uploadVideo initState 5 oid1 mp4Req).2.success = true ∧
        oid1 ∈ (uploadVideo initState 5 oid1 mp4Req).1.procTasks ∧
        (findById (uploadVideo initState 5 oid1 mp4Req).1.store oid1).map
          AnalysisRecord.status = some Status.pending ∧
        (findById (applyEvent (uploadVideo initState 5 oid1 mp4Req).1
            (.applyProcessing oid1)).store oid1).map
          AnalysisRecord.status = some Status.processing) :=
  ⟨by decide, by decide,
    @submit_initiates_processing initState 5 oid1 mp4Req (by decide) (by decide)⟩

/-- Claim C4, counterexample: The code has no guard against a second
`submit`: `startAnalysis` (`src/unnamed/part_000:168-196`)
unconditionally updates the record to `processing` and schedules another
deferred callback.  Applied to a record already in the terminal state
`completed`, a second submit is not a no-op: it drags the status back to
`processing` and schedules a second deferred completion. -/
theorem second_submit_not_noop :
    (findById demoTerminalState.store "a").map AnalysisRecord.status =
        some Status.completed ∧
      (findById (startAnalysisAgain demoTerminalState "a").store "a").map
        AnalysisRecord.status = some Status.processing ∧
      (startAnalysisAgain demoTerminalState "a").jobs.count "a" =
        demoTerminalState.jobs.count "a" + 1 ∧
      startAnalysisAgain demoTerminalState "a" ≠ demoTerminalState :=
  ⟨by decide, by decide, by decide, by decide⟩

/-- Claim C4, amended: The code contains no duplicate-submit guard (a
direct second `startAnalysis` on an existing record is not a no-op, see
the counterexample); what does hold is the in-flight bound: because every
upload submits a fresh Mongo id, in every reachable state at most one
piece of deferred work — the pending `processing` update or the scheduled
completion callback — is in flight per record. -/
theorem at_most_one_deferred {s : SysState} (hs : Reachable s)
    (id : String) :
    s.procTasks.count id + s.jobs.count id ≤ 1 :=
  (inv_reachable hs).1 id

theorem at_most_one_deferred_witness :
    demoProcessing.procTasks.count oid1 +
      demoProcessing.jobs.count oid1 ≤ 1 :=
  @at_most_one_deferred demoProcessing reachable_demoProcessing oid1

/-- Claim C5, counterexample: When the deferred step runs for an id with no
record, mongoose's `findByIdAndUpdate` resolves `null` without throwing:
no error is raised, the `catch` block never runs, and no
`processing → failed` transition occurs — the step is a silent no-op on
an empty store, contradicting the claim that the absence of the record is
converted into the `failed` transition. -/
theorem deferred_missing_record_silent :
    runDeferred [] "ghost" true rng0 = [] ∧
      runDeferred [] "ghost" false rng0 = [] ∧
      findById (runDeferred [] "ghost" true rng0) "ghost" = none :=
  ⟨rfl, rfl, rfl⟩

/-- Claim C5, amended: Any error raised inside the deferred completion step
is caught by its `catch` block and converted into the
`processing → failed` update for the (existing) record; the step consumes
its scheduled callback and schedules nothing new (never retried), and —
being a total function of the state — never escapes to crash the serving
process.  If the record is absent when the step runs, no error is raised
and the step silently leaves the store unchanged. -/
theorem deferred_error_handling (store : Store) (id : String)
    (rng : Nat → Nat) :
    (∀ r, findById store id = some r →
        findById (runDeferred store id true rng) id = some (setFailed r)) ∧
      (findById store id = none →
        ∀ err, runDeferred store id err rng = store) ∧
      (∀ s : SysState, ∀ err,
        (applyEvent s (.runJob id err rng)).jobs = s.jobs.erase id ∧
          (applyEvent s (.runJob id err rng)).procTasks = s.procTasks) := by
  refine ⟨fun r h => ?_, fun hnone err => ?_, fun s err => ⟨rfl, rfl⟩⟩
  · unfold runDeferred
    rw [if_pos rfl, findById_update_self setFailed h]
  · unfold runDeferred
    cases err with
    | true =>
      rw [if_pos rfl]
      exact findByIdAndUpdate_absent setFailed hnone
    | false =>
      rw [if_neg (by simp)]
      exact findByIdAndUpdate_absent _ hnone

theorem deferred_error_handling_witness :
    findById demoProcStore "a" = some demoProcRec ∧
      findById (runDeferred demoProcStore "a" true rng0) "a" =
        some (setFailed demoProcRec) :=
  ⟨by decide,
    (deferred_error_handling demoProcStore "a" rng0).1 demoProcRec (by decide)⟩

/-- Claim C6, counterexample: The minimal server (`src/server.js:30-33`,
cited by the claim) configures multer with the size limit but **no**
`fileFilter`: an upload declaring MIME `application/pdf` is accepted,
its bytes are persisted by `multer.diskStorage`, and the handler answers
`200 {success:true}` — not a 4xx rejection. -/
theorem serverjs_accepts_any_mime :
    fileFilterAccepts pdfReq.mimetype = false ∧
      (serverJsUploadVideo [] 5 (some pdfReq)).2.statusCode = 200 ∧
      (serverJsUploadVideo [] 5 (some pdfReq)).2.success = true ∧
      (serverJsUploadVideo [] 5 (some pdfReq)).1 =
        [uploadFilename 5 "doc.pdf"] :=
  ⟨by decide, by decide, by decide, by decide⟩

/-- Claim C6, amended: In the servers that install the multer `fileFilter`
(`src/unnamed/part_000`), every upload whose declared MIME type is
neither `video/mp4` nor `video/quicktime` is rejected with the
client-input error `"Invalid file type. Only MP4 and MOV are allowed."`
(surfaced as `400 {success:false}` by the variant that wires multer
errors to a response), and the rejection creates no `AnalysisRecord` and
persists no artifact bytes — the state is returned unchanged.  The
minimal `src/server.js` variant performs no MIME validation at all. -/
theorem invalid_mime_rejected {s : SysState} {ts : Nat} {newId : String}
    {req : UploadRequest} (h : fileFilterAccepts req.mimetype = false) :
    uploadVideo s ts newId req =
      (s, { statusCode := 400, success := false
            error := some "Invalid file type. Only MP4 and MOV are allowed."
            videoId := none, message := none }) := by
  unfold uploadVideo
  rw [if_neg (by simp [h])]

theorem invalid_mime_rejected_witness :
    fileFilterAccepts pdfReq.mimetype = false ∧
      uploadVideo initState 7 "idX" pdfReq =
        (initState,
          { statusCode := 400, success := false
            error := some "Invalid file type. Only MP4 and MOV are allowed."
            videoId := none, message := none }) :=
  ⟨by decide, @invalid_mime_rejected initState 7 "idX" pdfReq (by decide)⟩

/-- Claim C7, counterexample: the spec scenario id `"does-not-exist"`
references no record, yet the handler does not answer 404: it is not a
castable ObjectId, so `Analysis.findById` rejects with a `CastError`
which the `catch` (`src/unnamed/part_000:159-164`) converts into
`500 {success:false, error:<cast message>}`. -/
theorem malformed_id_query_is_500 :
    isValidObjectId "does-not-exist" = false ∧
      getAnalysis [] "does-not-exist" =
        .failure 500 (castErrorMessage "does-not-exist") ∧
      getAnalysis [] "does-not-exist" ≠
        .notFound 404 "Analysis not found" ∧
      (getAnalysis [] "does-not-exist").isSuccess = false :=
  ⟨by decide, by decide, by decide, by decide⟩

/-- Claim C7, amended: for every id that does not reference an existing
record, the MongoDB-backed `GET /api/analysis/:id` handler
(`src/unnamed/part_000:144-165`) never returns a success payload; when
the id is a castable ObjectId string it signals RecordNotFound as
`404 {success:false, error:"Analysis not found"}`, while a malformed id
rejects in `findById` with a `CastError` that the `catch` surfaces as
`500 {success:false, error:<cast message>}`. -/
theorem query_unknown_id_not_found {store : Store} {id : String}
    (h : findById store id = none) :
    (isValidObjectId id = true →
      getAnalysis store id = .notFound 404 "Analysis not found") ∧
      (isValidObjectId id = false →
        getAnalysis store id = .failure 500 (castErrorMessage id)) ∧
      (getAnalysis store id).isSuccess = false := by
  by_cases hv : isValidObjectId id = true
  · have hn : getAnalysis store id = .notFound 404 "Analysis not found" := by
      unfold getAnalysis findByIdChecked
      rw [if_pos hv, h]
    refine ⟨fun _ => hn, fun hv2 => ?_, ?_⟩
    · rw [hv] at hv2
      cases hv2
    · rw [hn]
      rfl
  · rw [Bool.not_eq_true] at hv
    have hf : getAnalysis store id = .failure 500 (castErrorMessage id) := by
      unfold getAnalysis findByIdChecked
      rw [if_neg (by simp [hv])]
    refine ⟨fun hv2 => ?_, fun _ => hf, ?_⟩
    · rw [hv] at hv2
      cases hv2
    · rw [hf]
      rfl

theorem query_unknown_id_not_found_witness :
    findById initState.store oid1 = none ∧
      ((isValidObjectId oid1 = true →
        getAnalysis initState.store oid1 =
          .notFound 404 "Analysis not found") ∧
        (isValidObjectId oid1 = false →
          getAnalysis initState.store oid1 =
            .failure 500 (castErrorMessage oid1)) ∧
        (getAnalysis initState.store oid1).isSuccess = false) :=
  ⟨rfl, @query_unknown_id_not_found initState.store oid1 rfl⟩

/-- Claim C8: For every value of the random source, `simulateAIAnalysis`
produces a payload of the fixed §6 shape (the `AnalysisResults` type:
`technique` with four detailed metrics, `footwork` with three, `strategy`
with overall score and feedback), and each of its ten numeric scores —
`Math.floor(Math.random() * 40) + 60` — lies in the interval
`[60, 100]`. -/
theorem simulateAIAnalysis_scores_in_range (rng : Nat → Nat) (x : Nat)
    (hx : x ∈ (simulateAIAnalysis rng).allScores) : 60 ≤ x ∧ x ≤ 100 := by
  simp only [simulateAIAnalysis, AnalysisResults.allScores, List.mem_cons,
    List.not_mem_nil, or_false] at hx
  rcases hx with rfl | rfl | rfl | rfl | rfl | rfl | rfl | rfl | rfl | rfl <;>
    · unfold randomScore
      omega

theorem simulateAIAnalysis_scores_in_range_witness :
    60 ∈ (simulateAIAnalysis rng0).allScores ∧ (60 ≤ 60 ∧ 60 ≤ 100) :=
  ⟨by decide, simulateAIAnalysis_scores_in_range rng0 60 (by decide)⟩

/-- Claim C9, counterexample: The `Date.now() + '-' + originalname` naming
scheme is not injective per upload: two distinct accepted uploads
(`oid1 ≠ oid2`) arriving in the same millisecond (`ts = 5`) with the
same original file name receive the *same* storage address, and the
uploads directory records the same filename twice. -/
theorem same_millisecond_uploads_collide :
    oid1 ≠ oid2 ∧
      (uploadVideo initState 5 oid1 mp4Req).2.success = true ∧
      (uploadVideo demoUploaded 5 oid2 mp4Req).2.success = true ∧
      (findById (uploadVideo demoUploaded 5 oid2 mp4Req).1.store oid1).map
        AnalysisRecord.videoId = some (uploadFilename 5 "match.mp4") ∧
      (findById (uploadVideo demoUploaded 5 oid2 mp4Req).1.store oid2).map
        AnalysisRecord.videoId = some (uploadFilename 5 "match.mp4") ∧
      (uploadVideo demoUploaded 5 oid2 mp4Req).1.files =
        [uploadFilename 5 "match.mp4", uploadFilename 5 "match.mp4"] :=
  ⟨by decide, by decide, by decide, by decide, by decide, by decide⟩

/-- Claim C9, amended: The timestamp-plus-original-name scheme yields
distinct storage addresses exactly up to its inputs: two accepted uploads
receive distinct addresses whenever they differ in timestamp or in
original file name (the decimal timestamp contains no dash, so the
encoding is injective in the pair); only same-millisecond uploads of the
same original name collide, as the counterexample shows. -/
theorem distinct_uploads_distinct_filenames {ts1 ts2 : Nat}
    {n1 n2 : String} (h : ts1 ≠ ts2 ∨ n1 ≠ n2) :
    uploadFilename ts1 n1 ≠ uploadFilename ts2 n2 := by
  intro heq
  obtain ⟨hts, hn⟩ := uploadFilename_inj heq
  rcases h with h | h
  · exact h hts
  · exact h hn

theorem distinct_uploads_distinct_filenames_witness :
    ((5 : Nat) ≠ 6 ∨ ("match.mp4" : String) ≠ "match.mp4") ∧
      uploadFilename 5 "match.mp4" ≠ uploadFilename 6 "match.mp4" :=
  ⟨Or.inl (by decide),
    @distinct_uploads_distinct_filenames 5 6 "match.mp4" "match.mp4"
      (Or.inl (by decide))⟩

/-- Claim C10: In the mock server variants (`src/server.js:83-139` and
`src/unnamed/part_000:541-612`), `GET /api/analysis/:id` is a constant
function of the id: for every id — including ids for which no upload ever
occurred — it answers 200 with the identical hardcoded payload, whose
status is `"completed"` and whose results are the fully populated fixture
of its variant, and it never answers 404. -/
theorem mock_get_analysis_constant (id : String) :
    serverJsGetAnalysis id = serverJsGetAnalysis "" ∧
      (serverJsGetAnalysis id).statusCode = 200 ∧
      (serverJsGetAnalysis id).statusCode ≠ 404 ∧
      (serverJsGetAnalysis id).success = true ∧
      (serverJsGetAnalysis id).analysis.status = "completed" ∧
      (serverJsGetAnalysis id).analysis.results = serverJsMockResults ∧
      mockServerGetAnalysis id = mockServerGetAnalysis "" ∧
      (mockServerGetAnalysis id).statusCode = 200 ∧
      (mockServerGetAnalysis id).statusCode ≠ 404 ∧
      (mockServerGetAnalysis id).success = true ∧
      (mockServerGetAnalysis id).analysis.status = "completed" ∧
      (mockServerGetAnalysis id).analysis.results = mockServerResults := by
  refine ⟨rfl, rfl, ?_, rfl, rfl, rfl, rfl, rfl, ?_, rfl, rfl, rfl⟩ <;>
    · show (200 : Nat) ≠ 404
      decide

end Badminton
